import Mathlib

/-!
Verification of the login ETL microservice (`src/login_etl.py`).

The service reads login events from a queue, validates them, masks PII
fields, normalizes the version string, stamps a creation date, and inserts
the result as one row of a relational table.

Python dictionaries (as produced by `json.loads` and mutated by the
transform) are modelled as ordered association lists `List (String × Value)`:
Python dicts preserve insertion order, assignment to an existing key keeps
its position, assignment to a fresh key appends at the end, and `del`
removes the entry.  Fallible Python operations (subscript on a missing key,
slicing or `.replace` on a non-string) are modelled with `Except PyErr`.
-/

namespace LoginETL

/-- A JSON-ish runtime value as it appears in an event dict.  `vnull` is
Python `None` (JSON `null`); `vdate` is a `datetime.date` (abstracted to a
day number, only ever produced by the transform). -/
inductive Value where
  | vnull : Value
  | vstr : String → Value
  | vdate : Nat → Value
deriving DecidableEq, Repr

/-- An event dict: ordered key/value association list (Python dict order). -/
abbrev Event := List (String × Value)

/-- The keys of a dict, in iteration order. -/
def keys (l : Event) : List String := l.map Prod.fst

/-- Python `d[k]` as an option: value at the first occurrence of `k`. -/
def lookup : Event → String → Option Value
  | [], _ => none
  | (k2, v) :: rest, k => if k2 = k then some v else lookup rest k

/-- Python `k in d`: key-presence test (used by `_is_valid`). -/
def hasKey (l : Event) (k : String) : Bool := (lookup l k).isSome

/-- Python `d[k] = v`: replace the value in place if `k` is present,
otherwise append the new entry at the end (dict insertion order). -/
def dictSet : Event → String → Value → Event
  | [], k, v => [(k, v)]
  | (k2, v2) :: rest, k, v =>
    if k2 = k then (k, v) :: rest else (k2, v2) :: dictSet rest k v

/-- Removes the first entry whose key is `k` (helper for `del d[k]`). -/
def delFirst : Event → String → Event
  | [], _ => []
  | (k2, v2) :: rest, k => if k2 = k then rest else (k2, v2) :: delFirst rest k

/-- Python runtime errors the embedded code can raise. -/
inductive PyErr where
  | keyError : String → PyErr
  | typeError : PyErr
  | attributeError : PyErr
  | dbError : PyErr
deriving DecidableEq, Repr

/-- Python `del d[k]`: removes the entry, `KeyError` if the key is absent. -/
def dictDel (l : Event) (k : String) : Except PyErr Event :=
  if hasKey l k then Except.ok (delFirst l k) else Except.error (PyErr.keyError k)

/-- `LoginETLService._mask` (src/login_etl.py:176-186):
`mid = len(data) // 2; return data[mid:] + data[:mid]`. -/
def mask (s : String) : String :=
  let mid := s.length / 2
  String.mk (s.data.drop mid ++ s.data.take mid)

/-- The `app_version` rewrite (src/login_etl.py:170):
`data["app_version"].replace(".", "")`, i.e. delete every `'.'` character. -/
def stripDots (s : String) : String :=
  String.mk (s.data.filter (fun c => c ≠ '.'))

/-- `LoginETLService._expected_raw_login_fields` (src/login_etl.py:93-100). -/
def expectedRawLoginFields : List String :=
  ["user_id", "device_type", "ip", "device_id", "locale", "app_version"]

/-- `LoginETLService._is_valid` (src/login_etl.py:148-157):
`data is not None and all(field in data for field in expected)`.
The argument is `Option Event` because `receive_message` may return `None`. -/
def isValid (data : Option Event) : Bool :=
  match data with
  | none => false
  | some d => expectedRawLoginFields.all (fun field => hasKey d field)

/-- Python subscript-then-use-as-string: `KeyError` if the key is absent,
`onBad` (a `TypeError` for slicing, an `AttributeError` for `.replace`) if
the value is not a string. -/
def getStr (onBad : PyErr) (l : Event) (k : String) : Except PyErr String :=
  match lookup l k with
  | none => Except.error (PyErr.keyError k)
  | some (Value.vstr s) => Except.ok s
  | some _ => Except.error onBad

/-- `LoginETLService._transform` (src/login_etl.py:159-174), with
`datetime.date.today()` passed in as the `today` parameter:

    data["masked_ip"] = self._mask(data["ip"])
    data["masked_device_id"] = self._mask(data["device_id"])
    data["app_version"] = data["app_version"].replace(".", "")
    data["create_date"] = datetime.date.today()
    del data["ip"]
    del data["device_id"]
    return data
-/
def transform (today : Nat) (data : Event) : Except PyErr Event :=
  match getStr PyErr.typeError data "ip" with
  | Except.error e => Except.error e
  | Except.ok ip0 =>
    let d1 := dictSet data "masked_ip" (Value.vstr (mask ip0))
    match getStr PyErr.typeError d1 "device_id" with
    | Except.error e => Except.error e
    | Except.ok did0 =>
      let d2 := dictSet d1 "masked_device_id" (Value.vstr (mask did0))
      match getStr PyErr.attributeError d2 "app_version" with
      | Except.error e => Except.error e
      | Except.ok av0 =>
        let d3 := dictSet d2 "app_version" (Value.vstr (stripDots av0))
        let d4 := dictSet d3 "create_date" (Value.vdate today)
        match dictDel d4 "ip" with
        | Except.error e => Except.error e
        | Except.ok d5 =>
          match dictDel d5 "device_id" with
          | Except.error e => Except.error e
          | Except.ok d6 => Except.ok d6

/-- Observable outcome of one iteration of the `LoginETLService.start` loop
body (src/login_etl.py:132-146): the iteration either skips to the next
poll (`continue`, or nothing to do), invokes the store client's write with
a row, or dies on an uncaught transform exception. -/
inductive IterOutcome where
  | skip : IterOutcome
  | wrote : Event → IterOutcome
  | crashed : PyErr → IterOutcome
deriving DecidableEq, Repr

/-- One iteration of `LoginETLService.start` (src/login_etl.py:135-146),
given the message the queue client returned for this poll:

    data = self.sqs_interface.receive_message()
    if not self._is_valid(data):
        continue
    data = self._transform(data)
    self.postgresql_interface.write(self.table, data)

The `none` branch inside the valid case is dead code (`isValid none = false`). -/
def loopIteration (today : Nat) (msg : Option Event) : IterOutcome :=
  if isValid msg then
    match msg with
    | none => IterOutcome.skip
    | some e =>
      match transform today e with
      | Except.ok row => IterOutcome.wrote row
      | Except.error err => IterOutcome.crashed err
  else IterOutcome.skip

/-- The rows handed to `postgresql_interface.write` by running the loop over
a finite prefix of poll results, in order. An uncaught transform exception
kills the process, so nothing further is written after a crash. -/
def runWrites (today : Nat) : List (Option Event) → List Event
  | [] => []
  | msg :: rest =>
    match loopIteration today msg with
    | IterOutcome.skip => runWrites today rest
    | IterOutcome.wrote row => row :: runWrites today rest
    | IterOutcome.crashed _ => []

/-- One raw message as delivered by the queue service: its receipt handle
(`message["ReceiptHandle"]`) and body text (`message["Body"]`). -/
structure RawMessage where
  receiptHandle : String
  body : String
deriving DecidableEq, Repr

/-- `SQSInterface.receive_message` (src/login_etl.py:25-38). The boto3
response is modelled as `none` when it has no `"Messages"` key, otherwise
the list of delivered messages; `json.loads` is the `parse` parameter (it
may raise, which propagates to the caller). The first component collects
the receipt handles passed to `_delete_message` (src/login_etl.py:40-50),
in the order those deletion requests are issued — all of them issued
before the function returns its second component to the caller. -/
def receiveMessage (parse : String → Except PyErr Event)
    (response : Option (List RawMessage)) :
    List String × Except PyErr (Option Event) :=
  match response with
  | none => ([], Except.ok none)
  | some [] => ([], Except.ok none)
  | some (m :: _) =>
    ([m.receiptHandle],
      match parse m.body with
      | Except.ok v => Except.ok (some v)
      | Except.error e => Except.error e)

/-- Modelled from the spec: the transaction scope `with self.connection:`
used by `PostgreSQLInterface.write` (src/login_etl.py:82) gets its
commit/rollback semantics from the psycopg2 library, which is not part of
this repository's sources. Per spec §4.2 the scope commits on normal
completion and rolls back on any exception. `committed` holds the durable
rows of the store (tagged with their table name), `pending` the
uncommitted work of an open transaction. -/
structure DbConn where
  committed : List (String × Event)
  pending : List (String × Event)
  inTransaction : Bool
deriving DecidableEq, Repr

/-- Buffers one inserted row inside the current transaction. -/
def execInsert (c : DbConn) (table : String) (row : Event) : DbConn :=
  { c with pending := c.pending ++ [(table, row)], inTransaction := true }

/-- Commit: pending work becomes durable and the transaction closes. -/
def commitTx (c : DbConn) : DbConn :=
  { committed := c.committed ++ c.pending, pending := [], inTransaction := false }

/-- Rollback: pending work is discarded and the transaction closes. -/
def rollbackTx (c : DbConn) : DbConn :=
  { c with pending := [], inTransaction := false }

/-- `PostgreSQLInterface.write` (src/login_etl.py:70-87) at the transaction
level: `execFails` says whether `cursor.execute` raises. On normal
completion the `with self.connection:` scope commits; on an exception it
rolls back and the exception surfaces to the caller. -/
def pgWrite (execFails : Bool) (c : DbConn) (table : String) (row : Event) :
    DbConn × Option PyErr :=
  if execFails then (rollbackTx (execInsert c table row), some PyErr.dbError)
  else (commitTx (execInsert c table row), none)

/-- Python `sep.join(parts)` (used at src/login_etl.py:81). -/
def pyJoin (sep : String) : List String → String
  | [] => ""
  | [x] => x
  | x :: y :: rest => x ++ sep ++ pyJoin sep (y :: rest)

/-- Line 81: `placeholders = "(" + ", ".join(["%s"] * len(row)) + ")"`. -/
def placeholdersStr (n : Nat) : String :=
  "(" ++ pyJoin ", " (List.replicate n "%s") ++ ")"

/-- Line 80: `column_names = sql.SQL(", ").join(sql.Identifier(col) for col
in row.keys())`; `quote` abstracts psycopg2's identifier-quoting mechanism
`sql.Identifier`. The column list follows the row's iteration order. -/
def columnIdents (quote : String → String) (row : Event) : List String :=
  (keys row).map quote

/-- Line 87: `tuple(row.values())` — the parameters bound to the statement,
in the row's iteration order. -/
def boundParams (row : Event) : List Value := row.map Prod.snd

/-- Lines 84-86: the statement text
`sql.SQL("INSERT INTO {} ({}) VALUES " + placeholders + ";").format(table_name, column_names)`. -/
def insertStatementText (quote : String → String) (table : String) (row : Event) : String :=
  "INSERT INTO " ++ quote table ++ " (" ++ pyJoin ", " (columnIdents quote row) ++
    ") VALUES " ++ placeholdersStr row.length ++ ";"

/-- An event with all six expected keys present but a null (Python `None`)
value under `user_id`. -/
def nullFieldEvent : Event :=
  [("user_id", Value.vnull), ("device_type", Value.vstr "ios"),
   ("ip", Value.vstr "1.2.3.4"), ("device_id", Value.vstr "d1"),
   ("locale", Value.vstr "en-US"), ("app_version", Value.vstr "2.0.1")]

/-- The accepted example event of spec §8 extended with an extra key. -/
def extendedEvent : Event :=
  [("user_id", Value.vstr "u1"), ("device_type", Value.vstr "ios"),
   ("ip", Value.vstr "1.2.3.4"), ("device_id", Value.vstr "d1"),
   ("locale", Value.vstr "en-US"), ("app_version", Value.vstr "2.0.1"),
   ("extra", Value.vnull)]

/-- The end-to-end example event of spec §8. -/
def sampleEvent : Event :=
  [("user_id", Value.vstr "42"), ("device_type", Value.vstr "android"),
   ("ip", Value.vstr "10.0.0.1"), ("device_id", Value.vstr "dev-99"),
   ("locale", Value.vstr "fr-FR"), ("app_version", Value.vstr "3.10.2")]

/-- The row the transform produces from `sampleEvent` on day `0`. -/
def sampleRow : Event :=
  [("user_id", Value.vstr "42"), ("device_type", Value.vstr "android"),
   ("locale", Value.vstr "fr-FR"), ("app_version", Value.vstr "3102"),
   ("masked_ip", Value.vstr ".0.110.0"), ("masked_device_id", Value.vstr "-99dev"),
   ("create_date", Value.vdate 0)]

/-! Basic facts about strings and the dict model. -/

lemma string_ext {s t : String} (h : s.data = t.data) : s = t := by
  cases s; cases t; exact congrArg String.mk h

lemma mask_data (s : String) :
    (mask s).data = s.data.drop (s.data.length / 2) ++ s.data.take (s.data.length / 2) := rfl

lemma lookup_cons_self (k : String) (v : Value) (tl : Event) :
    lookup ((k, v) :: tl) k = some v := by
  simp [lookup]

lemma lookup_cons_ne (k2 k : String) (v : Value) (tl : Event) (h : k2 ≠ k) :
    lookup ((k2, v) :: tl) k = lookup tl k := by
  simp [lookup, h]

lemma dictSet_cons_self (k : String) (v2 v : Value) (tl : Event) :
    dictSet ((k, v2) :: tl) k v = (k, v) :: tl := by
  simp [dictSet]

lemma dictSet_cons_ne (k2 k : String) (v2 v : Value) (tl : Event) (h : k2 ≠ k) :
    dictSet ((k2, v2) :: tl) k v = (k2, v2) :: dictSet tl k v := by
  simp [dictSet, h]

lemma delFirst_cons_self (k : String) (v2 : Value) (tl : Event) :
    delFirst ((k, v2) :: tl) k = tl := by
  simp [delFirst]

lemma delFirst_cons_ne (k2 k : String) (v2 : Value) (tl : Event) (h : k2 ≠ k) :
    delFirst ((k2, v2) :: tl) k = (k2, v2) :: delFirst tl k := by
  simp [delFirst, h]

lemma keys_cons (k : String) (v : Value) (tl : Event) :
    keys ((k, v) :: tl) = k :: keys tl := rfl

lemma lookup_dictSet_self (l : Event) (k : String) (v : Value) :
    lookup (dictSet l k v) k = some v := by
  induction l with
  | nil => simp [dictSet, lookup]
  | cons hd tl ih =>
    obtain ⟨k2, v2⟩ := hd
    by_cases hk : k2 = k
    · subst hk
      simp [dictSet, lookup]
    · simp [dictSet, lookup, hk, ih]

lemma lookup_dictSet_ne (l : Event) (k j : String) (v : Value) (h : j ≠ k) :
    lookup (dictSet l k v) j = lookup l j := by
  induction l with
  | nil => simp [dictSet, lookup, Ne.symm h]
  | cons hd tl ih =>
    obtain ⟨k2, v2⟩ := hd
    by_cases hk : k2 = k
    · subst hk
      simp [dictSet, lookup, Ne.symm h]
    · simp [dictSet, lookup, hk, ih]

lemma lookup_delFirst_ne (l : Event) (k j : String) (h : j ≠ k) :
    lookup (delFirst l k) j = lookup l j := by
  induction l with
  | nil => simp [delFirst]
  | cons hd tl ih =>
    obtain ⟨k2, v2⟩ := hd
    by_cases hk : k2 = k
    · subst hk
      simp [delFirst, lookup, Ne.symm h]
    · simp [delFirst, lookup, hk, ih]

lemma mem_keys_iff_lookup (l : Event) (k : String) :
    k ∈ keys l ↔ (lookup l k).isSome := by
  induction l with
  | nil => simp [keys, lookup]
  | cons hd tl ih =>
    obtain ⟨k2, v2⟩ := hd
    by_cases hk : k2 = k
    · subst hk
      simp [keys, lookup]
    · have ih2 : k ∈ List.map Prod.fst tl ↔ (lookup tl k).isSome = true := ih
      simp only [keys, List.map_cons, List.mem_cons, lookup, if_neg hk]
      rw [ih2]
      simp [Ne.symm hk]

lemma lookup_eq_none_iff (l : Event) (k : String) :
    lookup l k = none ↔ k ∉ keys l := by
  rw [mem_keys_iff_lookup]
  cases lookup l k <;> simp

lemma delFirst_sublist (l : Event) (k : String) : List.Sublist (delFirst l k) l := by
  induction l with
  | nil => simp [delFirst]
  | cons hd tl ih =>
    obtain ⟨k2, v2⟩ := hd
    by_cases hk : k2 = k
    · simp only [delFirst, if_pos hk]
      exact List.sublist_cons_self (k2, v2) tl
    · simpa [delFirst, hk] using List.Sublist.cons₂ (k2, v2) ih

lemma keys_delFirst_sublist (l : Event) (k : String) :
    List.Sublist (keys (delFirst l k)) (keys l) :=
  List.Sublist.map Prod.fst (delFirst_sublist l k)

lemma lookup_delFirst_self (l : Event) (k : String) (h : (keys l).Nodup) :
    lookup (delFirst l k) k = none := by
  induction l with
  | nil => simp [delFirst, lookup]
  | cons hd tl ih =>
    obtain ⟨k2, v2⟩ := hd
    simp only [keys, List.map_cons, List.nodup_cons] at h
    by_cases hk : k2 = k
    · subst hk
      simp only [delFirst, if_pos rfl]
      exact (lookup_eq_none_iff tl k2).2 h.1
    · simp only [delFirst, if_neg hk, lookup, if_neg hk]
      exact ih h.2

lemma mem_keys_dictSet (l : Event) (k j : String) (v : Value) :
    j ∈ keys (dictSet l k v) ↔ j = k ∨ j ∈ keys l := by
  induction l with
  | nil => simp [dictSet, keys]
  | cons hd tl ih =>
    obtain ⟨k2, v2⟩ := hd
    by_cases hk : k2 = k
    · subst hk
      simp [dictSet, keys]
    · simp only [dictSet, if_neg hk, keys, List.map_cons, List.mem_cons]
      rw [show keys (dictSet tl k v) = (dictSet tl k v).map Prod.fst from rfl] at ih
      rw [ih]
      tauto

lemma nodup_keys_dictSet (l : Event) (k : String) (v : Value) (h : (keys l).Nodup) :
    (keys (dictSet l k v)).Nodup := by
  induction l with
  | nil => simp [dictSet, keys]
  | cons hd tl ih =>
    obtain ⟨k2, v2⟩ := hd
    simp only [keys, List.map_cons, List.nodup_cons] at h
    by_cases hk : k2 = k
    · subst hk
      rw [dictSet_cons_self, keys_cons]
      simp only [List.nodup_cons]
      exact h
    · rw [dictSet_cons_ne k2 k v2 v tl hk, keys_cons]
      simp only [List.nodup_cons]
      refine ⟨fun hmem => ?_, ih h.2⟩
      rcases (mem_keys_dictSet tl k k2 v).1 hmem with h1 | h1
      · exact hk h1
      · exact h.1 h1

lemma nodup_keys_delFirst (l : Event) (k : String) (h : (keys l).Nodup) :
    (keys (delFirst l k)).Nodup :=
  h.sublist (keys_delFirst_sublist l k)

lemma mem_keys_delFirst (l : Event) (k j : String) (h : (keys l).Nodup) :
    j ∈ keys (delFirst l k) ↔ j ∈ keys l ∧ j ≠ k := by
  constructor
  · intro hmem
    refine ⟨(keys_delFirst_sublist l k).subset hmem, ?_⟩
    intro heq
    rw [heq, mem_keys_iff_lookup, lookup_delFirst_self l k h] at hmem
    simp at hmem
  · rintro ⟨hmem, hne⟩
    rw [mem_keys_iff_lookup, lookup_delFirst_ne l k j hne, ← mem_keys_iff_lookup]
    exact hmem

/-- C1 (amended): re-applying the mask recovers the original for every
string of even length, and trivially for strings of length at most one;
for longer odd-length strings the double application rotates by
length − 1 and need not return the original (see the counterexample). -/
theorem mask_mask_of_even_or_short (s : String)
    (h : s.length % 2 = 0 ∨ s.length ≤ 1) : mask (mask s) = s := by
  apply string_ext
  rw [mask_data, mask_data]
  rcases h with h | h
  · have h2 : s.data.length % 2 = 0 := h
    set l := s.data with hl
    set m := l.length / 2 with hm
    have hle : m ≤ l.length := Nat.div_le_self _ _
    have hlen : (l.drop m ++ l.take m).length = l.length := by
      simp only [List.length_append, List.length_drop, List.length_take]
      omega
    rw [hlen, ← hm]
    have hdm : (l.drop m).length = m := by
      rw [List.length_drop]; omega
    have e1 := List.drop_left (l.drop m) (l.take m)
    have e2 := List.take_left (l.drop m) (l.take m)
    rw [hdm] at e1 e2
    rw [e1, e2, List.take_append_drop]
  · have hm0 : s.length / 2 = 0 := by omega
    have hm0d : s.data.length / 2 = 0 := hm0
    simp [hm0, hm0d]

/-- C1 counterexample: the claim that mask(mask(s)) == s for every string s
fails at the odd-length string "abc": the code rotates by mid = 1 twice,
giving "cab", and re-applying the operation does not recover the original. -/
theorem mask_double_odd_counterexample :
    mask (mask "abc") = "cab" ∧ ("cab" : String) ≠ "abc" :=
  ⟨rfl, by decide⟩

/-- C1 witness: the amended self-inverse law applied at the even-length
string "abcdef" (the spec's own example). -/
theorem mask_double_even_witness :
    (("abcdef" : String).length % 2 = 0 ∨ ("abcdef" : String).length ≤ 1) ∧
      mask (mask "abcdef") = "abcdef" :=
  ⟨Or.inl (by decide), mask_mask_of_even_or_short "abcdef" (Or.inl (by decide))⟩

/-- C9: the app_version normalization (deleting every '.' character) is
idempotent after the first pass: stripDots (stripDots v) = stripDots v. -/
theorem stripDots_idempotent (v : String) :
    stripDots (stripDots v) = stripDots v := by
  apply string_ext
  simp [stripDots, List.filter_filter]

/-- C2 counterexample: an event carrying all six expected keys but a null
value under user_id is accepted by the code's validation (it only tests key
presence with `field in data`), while the claim says such an event is
rejected. -/
theorem isValid_null_value_counterexample :
    lookup nullFieldEvent "user_id" = some Value.vnull ∧
      isValid (some nullFieldEvent) = true :=
  ⟨rfl, rfl⟩

/-- C2 (amended): the validation predicate accepts an event iff the event
is not None and every one of the six expected keys is present — regardless
of the stored values, so null values pass. -/
theorem isValid_iff_keys_present (data : Option Event) :
    isValid data = true ↔
      ∃ e, data = some e ∧ ∀ f ∈ expectedRawLoginFields, hasKey e f = true := by
  cases data with
  | none => simp [isValid]
  | some e => simp [isValid, List.all_eq_true]

/-- C2 witness: the amended validation law applied in both directions at a
concrete accepted event with a null field. -/
theorem isValid_iff_keys_present_witness :
    isValid (some nullFieldEvent) = true ∧
      (∃ e, (some nullFieldEvent : Option Event) = some e ∧
        ∀ f ∈ expectedRawLoginFields, hasKey e f = true) :=
  ⟨(isValid_iff_keys_present (some nullFieldEvent)).2 ⟨nullFieldEvent, rfl, by decide⟩,
   (isValid_iff_keys_present (some nullFieldEvent)).1 (by decide)⟩

/-- C5: validation is field-set-exact with respect to key presence: an
event missing any one of the six required keys is rejected, and an event
containing all six required keys — whatever else it also carries — is
accepted. -/
theorem isValid_field_set_exact (e : Event) :
    (∀ f, f ∈ expectedRawLoginFields → hasKey e f = false →
      isValid (some e) = false) ∧
    ((∀ f ∈ expectedRawLoginFields, hasKey e f = true) →
      isValid (some e) = true) := by
  constructor
  · intro f hf hnot
    simp only [isValid]
    cases hall : expectedRawLoginFields.all (fun field => hasKey e field) with
    | false => rfl
    | true =>
      rw [List.all_eq_true] at hall
      have hft := hall f hf
      rw [hnot] at hft
      cases hft
  · intro hall
    simp only [isValid, List.all_eq_true]
    exact hall

/-- C5 witness: the empty event (missing user_id) is rejected and the
spec §8 example event extended with an extra key is accepted. -/
theorem isValid_field_set_exact_witness :
    isValid (some ([] : Event)) = false ∧ isValid (some extendedEvent) = true :=
  ⟨(isValid_field_set_exact []).1 "user_id" (by decide) (by decide),
   (isValid_field_set_exact extendedEvent).2 (by decide)⟩

lemma getStr_ok_iff (onBad : PyErr) (l : Event) (k : String) (s : String) :
    getStr onBad l k = Except.ok s ↔ lookup l k = some (Value.vstr s) := by
  unfold getStr
  cases lookup l k with
  | none => simp
  | some v => cases v <;> simp

lemma transform_eq (today : Nat) (e : Event) (ip0 did0 av0 : String)
    (h1 : lookup e "ip" = some (Value.vstr ip0))
    (h2 : lookup e "device_id" = some (Value.vstr did0))
    (h3 : lookup e "app_version" = some (Value.vstr av0)) :
    transform today e = Except.ok (delFirst (delFirst
      (dictSet (dictSet (dictSet (dictSet e "masked_ip" (Value.vstr (mask ip0)))
        "masked_device_id" (Value.vstr (mask did0)))
        "app_version" (Value.vstr (stripDots av0)))
        "create_date" (Value.vdate today)) "ip") "device_id") := by
  simp [transform, getStr, dictDel, hasKey, h1, h2, h3,
    lookup_dictSet_ne, lookup_delFirst_ne]

lemma transform_ok_shape (today : Nat) (e out : Event)
    (h : transform today e = Except.ok out) :
    ∃ ip0 did0 av0 : String,
      lookup e "ip" = some (Value.vstr ip0) ∧
      lookup e "device_id" = some (Value.vstr did0) ∧
      lookup e "app_version" = some (Value.vstr av0) := by
  unfold transform at h
  cases g1 : getStr PyErr.typeError e "ip" with
  | error err => simp [g1] at h
  | ok ip0 =>
    simp only [g1] at h
    cases g2 : getStr PyErr.typeError
        (dictSet e "masked_ip" (Value.vstr (mask ip0))) "device_id" with
    | error err => simp [g2] at h
    | ok did0 =>
      simp only [g2] at h
      cases g3 : getStr PyErr.attributeError
          (dictSet (dictSet e "masked_ip" (Value.vstr (mask ip0)))
            "masked_device_id" (Value.vstr (mask did0))) "app_version" with
      | error err => simp [g3] at h
      | ok av0 =>
        rw [getStr_ok_iff] at g1 g2 g3
        rw [lookup_dictSet_ne _ _ _ _ (by decide)] at g2
        rw [lookup_dictSet_ne _ _ _ _ (by decide),
          lookup_dictSet_ne _ _ _ _ (by decide)] at g3
        exact ⟨ip0, did0, av0, g1, g2, g3⟩

/-- C3 counterexample: on the spec §8 example event the first transform
succeeds, and the second transform — far from re-applying the mask and
yielding the original ip under masked_ip — raises KeyError("ip"), because
the first transform deleted the ip key. -/
theorem transform_twice_counterexample :
    transform 0 sampleEvent = Except.ok sampleRow ∧
      transform 0 sampleRow = Except.error (PyErr.keyError "ip") :=
  ⟨rfl, rfl⟩

/-- C3 (amended): applying the transform to an already-transformed object
never re-applies the mask — it always fails with KeyError("ip"), since the
first transform removed the ip key; transform is not idempotent because it
cannot even be applied twice. -/
theorem transform_not_reapplicable (today today2 : Nat) (e out : Event)
    (hnd : (keys e).Nodup) (h : transform today e = Except.ok out) :
    transform today2 out = Except.error (PyErr.keyError "ip") := by
  obtain ⟨ip0, did0, av0, h1, h2, h3⟩ := transform_ok_shape today e out h
  rw [transform_eq today e ip0 did0 av0 h1 h2 h3] at h
  have hout : out = delFirst (delFirst
      (dictSet (dictSet (dictSet (dictSet e "masked_ip" (Value.vstr (mask ip0)))
        "masked_device_id" (Value.vstr (mask did0)))
        "app_version" (Value.vstr (stripDots av0)))
        "create_date" (Value.vdate today)) "ip") "device_id" := by
    injection h with h
    exact h.symm
  have nd4 : (keys (dictSet (dictSet (dictSet (dictSet e "masked_ip"
      (Value.vstr (mask ip0))) "masked_device_id" (Value.vstr (mask did0)))
      "app_version" (Value.vstr (stripDots av0)))
      "create_date" (Value.vdate today))).Nodup :=
    nodup_keys_dictSet _ _ _ (nodup_keys_dictSet _ _ _
      (nodup_keys_dictSet _ _ _ (nodup_keys_dictSet _ _ _ hnd)))
  have hnone : lookup out "ip" = none := by
    rw [hout, lookup_delFirst_ne _ _ _ (by decide)]
    exact lookup_delFirst_self _ _ nd4
  simp [transform, getStr, hnone]

/-- C3 witness: the amended no-second-transform law applied to the concrete
row produced from the spec §8 example event. -/
theorem transform_not_reapplicable_witness :
    transform 1 sampleRow = Except.error (PyErr.keyError "ip") :=
  transform_not_reapplicable 0 1 sampleEvent sampleRow (by decide) rfl

/-- C4: for a valid input event (whose ip, device_id and app_version hold
string values, as the RawLoginEvent schema prescribes, and whose keys are
distinct, as in any Python dict), the transform succeeds and: its output
key set is the input key set minus {ip, device_id} plus {masked_ip,
masked_device_id, create_date}; masked_ip and masked_device_id hold the
masked originals; app_version is rewritten in place to its dot-free form;
create_date is stamped; and every other key's value passes through
unchanged. -/
theorem transform_frame (today : Nat) (e : Event) (ip0 did0 av0 : String)
    (hnd : (keys e).Nodup)
    (_hv : isValid (some e) = true)
    (h1 : lookup e "ip" = some (Value.vstr ip0))
    (h2 : lookup e "device_id" = some (Value.vstr did0))
    (h3 : lookup e "app_version" = some (Value.vstr av0)) :
    ∃ out, transform today e = Except.ok out ∧
      (keys out).toFinset = ((keys e).toFinset \ {"ip", "device_id"}) ∪
        {"masked_ip", "masked_device_id", "create_date"} ∧
      lookup out "masked_ip" = some (Value.vstr (mask ip0)) ∧
      lookup out "masked_device_id" = some (Value.vstr (mask did0)) ∧
      lookup out "app_version" = some (Value.vstr (stripDots av0)) ∧
      lookup out "create_date" = some (Value.vdate today) ∧
      ∀ k, k ∉ (["ip", "device_id", "app_version", "masked_ip",
        "masked_device_id", "create_date"] : List String) →
        lookup out k = lookup e k := by
  refine ⟨_, transform_eq today e ip0 did0 av0 h1 h2 h3, ?_, ?_, ?_, ?_, ?_, ?_⟩
  · have nd1 := nodup_keys_dictSet e "masked_ip" (Value.vstr (mask ip0)) hnd
    have nd2 := nodup_keys_dictSet _ "masked_device_id" (Value.vstr (mask did0)) nd1
    have nd3 := nodup_keys_dictSet _ "app_version" (Value.vstr (stripDots av0)) nd2
    have nd4 := nodup_keys_dictSet _ "create_date" (Value.vdate today) nd3
    have nd5 := nodup_keys_delFirst _ "ip" nd4
    have hav : "app_version" ∈ keys e := by
      rw [mem_keys_iff_lookup, h3]
      rfl
    ext j
    simp only [List.mem_toFinset, Finset.mem_union, Finset.mem_sdiff,
      Finset.mem_insert, Finset.mem_singleton]
    rw [mem_keys_delFirst _ _ _ nd5, mem_keys_delFirst _ _ _ nd4,
      mem_keys_dictSet, mem_keys_dictSet, mem_keys_dictSet, mem_keys_dictSet]
    by_cases j1 : j = "ip" <;> by_cases j2 : j = "device_id" <;>
      by_cases j3 : j = "app_version" <;> by_cases j4 : j = "masked_ip" <;>
      by_cases j5 : j = "masked_device_id" <;>
      by_cases j6 : j = "create_date" <;> simp_all
  · simp [lookup_delFirst_ne, lookup_dictSet_ne, lookup_dictSet_self]
  · simp [lookup_delFirst_ne, lookup_dictSet_ne, lookup_dictSet_self]
  · simp [lookup_delFirst_ne, lookup_dictSet_ne, lookup_dictSet_self]
  · simp [lookup_delFirst_ne, lookup_dictSet_ne, lookup_dictSet_self]
  · intro k hk
    simp only [List.mem_cons, List.not_mem_nil, or_false, not_or] at hk
    obtain ⟨n1, n2, n3, n4, n5, n6⟩ := hk
    rw [lookup_delFirst_ne _ _ _ n2, lookup_delFirst_ne _ _ _ n1,
      lookup_dictSet_ne _ _ _ _ n6, lookup_dictSet_ne _ _ _ _ n3,
      lookup_dictSet_ne _ _ _ _ n5, lookup_dictSet_ne _ _ _ _ n4]

/-- C4 witness: the frame theorem applied to the spec §8 example event. -/
theorem transform_frame_witness :
    ∃ out, transform 0 sampleEvent = Except.ok out ∧
      (keys out).toFinset = ((keys sampleEvent).toFinset \ {"ip", "device_id"}) ∪
        {"masked_ip", "masked_device_id", "create_date"} ∧
      lookup out "masked_ip" = some (Value.vstr (mask "10.0.0.1")) ∧
      lookup out "masked_device_id" = some (Value.vstr (mask "dev-99")) ∧
      lookup out "app_version" = some (Value.vstr (stripDots "3.10.2")) ∧
      lookup out "create_date" = some (Value.vdate 0) ∧
      ∀ k, k ∉ (["ip", "device_id", "app_version", "masked_ip",
        "masked_device_id", "create_date"] : List String) →
        lookup out k = lookup sampleEvent k :=
  transform_frame 0 sampleEvent "10.0.0.1" "dev-99" "3.10.2" (by decide) rfl rfl rfl rfl

/-- C6: the store client's write is invoked in an iteration only when the
received event passed validation, and a poll that returns no message
performs no write — the loop simply proceeds to the next poll. -/
theorem write_only_after_validation (today : Nat) (rest : List (Option Event))
    (msg : Option Event) (row : Event) :
    runWrites today (none :: rest) = runWrites today rest ∧
      (loopIteration today msg = IterOutcome.wrote row → isValid msg = true) := by
  constructor
  · simp [runWrites, loopIteration, isValid]
  · intro h
    by_cases hval : isValid msg = true
    · exact hval
    · simp [loopIteration, hval] at h

/-- C6 witness: an empty poll writes nothing, and a concrete write (of the
row produced from the spec §8 example event) implies that event was valid. -/
theorem write_only_after_validation_witness :
    runWrites 0 [none] = runWrites 0 [] ∧ isValid (some sampleEvent) = true :=
  ⟨(write_only_after_validation 0 [] none sampleRow).1,
   (write_only_after_validation 0 [] (some sampleEvent) sampleRow).2 rfl⟩

/-- C7: whenever receive_message returns a message body to its caller, the
deletion request for that message — using its receipt handle — was issued
before control returned: the issued-deletions trace is exactly the first
delivered message's receipt handle, and the returned value is its parsed
body. -/
theorem receive_deletes_before_return (parse : String → Except PyErr Event)
    (response : Option (List RawMessage)) (v : Event)
    (h : (receiveMessage parse response).2 = Except.ok (some v)) :
    ∃ m rest, response = some (m :: rest) ∧
      (receiveMessage parse response).1 = [m.receiptHandle] ∧
      parse m.body = Except.ok v := by
  cases response with
  | none => simp [receiveMessage] at h
  | some mlist =>
    cases mlist with
    | nil => simp [receiveMessage] at h
    | cons m rest =>
      refine ⟨m, rest, rfl, rfl, ?_⟩
      simp only [receiveMessage] at h
      cases hp : parse m.body with
      | ok w =>
        rw [hp] at h
        simp at h
        rw [h]
      | error err =>
        rw [hp] at h
        simp at h

/-- C7 witness: the deletion-before-return law applied to a concrete
response of one message whose body parses to the spec §8 example event. -/
theorem receive_deletes_before_return_witness :
    ∃ m rest, (some [RawMessage.mk "rh-1" "body-text"] : Option (List RawMessage)) =
        some (m :: rest) ∧
      (receiveMessage (fun _ => Except.ok sampleEvent)
        (some [RawMessage.mk "rh-1" "body-text"])).1 = [m.receiptHandle] ∧
      (fun _ => Except.ok sampleEvent : String → Except PyErr Event) m.body =
        Except.ok sampleEvent :=
  receive_deletes_before_return (fun _ => Except.ok sampleEvent)
    (some [RawMessage.mk "rh-1" "body-text"]) sampleEvent rfl

/-- C8: the write is atomic — starting from a quiescent connection (no
pending work, no open transaction), a failing execute leaves the store in
exactly its prior state with no pending row and no dangling transaction,
and the failure surfaces to the caller; a normal completion commits exactly
the one row. The transaction scope itself is modelled from the spec, see
`DbConn`. -/
theorem pgWrite_atomic (c : DbConn) (table : String) (row : Event)
    (hp : c.pending = []) (ht : c.inTransaction = false) :
    ((pgWrite true c table row).1 = c ∧
      (pgWrite true c table row).2 = some PyErr.dbError) ∧
    ((pgWrite false c table row).1.committed = c.committed ++ [(table, row)] ∧
      (pgWrite false c table row).1.pending = [] ∧
      (pgWrite false c table row).1.inTransaction = false ∧
      (pgWrite false c table row).2 = none) := by
  obtain ⟨cm, pd, tx⟩ := c
  simp only at hp ht
  subst hp
  subst ht
  simp [pgWrite, rollbackTx, execInsert, commitTx]

/-- C8 witness: the atomicity law applied to a fresh connection and the
row produced from the spec §8 example event. -/
theorem pgWrite_atomic_witness :
    ((pgWrite true (DbConn.mk [] [] false) "user_logins" sampleRow).1 =
        DbConn.mk [] [] false ∧
      (pgWrite true (DbConn.mk [] [] false) "user_logins" sampleRow).2 =
        some PyErr.dbError) ∧
    ((pgWrite false (DbConn.mk [] [] false) "user_logins" sampleRow).1.committed =
        (DbConn.mk [] [] false).committed ++ [("user_logins", sampleRow)] ∧
      (pgWrite false (DbConn.mk [] [] false) "user_logins" sampleRow).1.pending = [] ∧
      (pgWrite false (DbConn.mk [] [] false) "user_logins" sampleRow).1.inTransaction = false ∧
      (pgWrite false (DbConn.mk [] [] false) "user_logins" sampleRow).2 = none) :=
  pgWrite_atomic (DbConn.mk [] [] false) "user_logins" sampleRow rfl rfl

lemma pyJoin_replicate_percent_count (n : Nat) :
    ((pyJoin ", " (List.replicate n "%s")).data.count '%') = n := by
  induction n with
  | zero => rfl
  | succ k ih =>
    cases k with
    | zero => rfl
    | succ k2 =>
      rw [List.replicate_succ, List.replicate_succ]
      have h1 : ("%s" : String).data.count '%' = 1 := rfl
      have h2 : ((", " : String)).data.count '%' = 0 := rfl
      calc ((pyJoin ", " ("%s" :: "%s" :: List.replicate k2 "%s")).data.count '%')
          = ((("%s" ++ ", ") ++ pyJoin ", " ("%s" :: List.replicate k2 "%s")).data.count '%') := rfl
        _ = 1 + 0 + ((pyJoin ", " ("%s" :: List.replicate k2 "%s")).data.count '%') := by
            rw [String.data_append, String.data_append, List.count_append,
              List.count_append, h1, h2]
        _ = k2 + 1 + 1 := by
            rw [← List.replicate_succ, ih]
            omega

/-- C10: for every non-empty row, the built INSERT statement's column list
is the row's keys in iteration order each passed through the
identifier-quoting mechanism; its placeholder count — '%' characters in the
VALUES clause, one per "%s" — equals the number of row entries; and its
bound parameter tuple is the row's values in the same order, so the i-th
value is bound to the i-th column name. -/
theorem insert_builder_aligned (quote : String → String) (row : Event)
    (_hne : row ≠ []) :
    columnIdents quote row = (keys row).map quote ∧
      ((placeholdersStr row.length).data.count '%') = row.length ∧
      boundParams row = row.map Prod.snd ∧
      (columnIdents quote row).zip (boundParams row) =
        row.map (fun kv => (quote kv.1, kv.2)) := by
  refine ⟨rfl, ?_, rfl, ?_⟩
  · unfold placeholdersStr
    rw [String.data_append, String.data_append, List.count_append, List.count_append,
      pyJoin_replicate_percent_count]
    rw [show List.count '%' ("(" : String).data = 0 from rfl,
      show List.count '%' (")" : String).data = 0 from rfl]
    omega
  · unfold columnIdents boundParams keys
    rw [List.map_map, List.zip_map']
    rfl

/-- C10 witness: the builder-alignment law applied to the row produced from
the spec §8 example event, with the identity quoting function. -/
theorem insert_builder_aligned_witness :
    (sampleRow ≠ []) ∧
      (columnIdents (fun s => s) sampleRow = (keys sampleRow).map (fun s => s) ∧
        ((placeholdersStr sampleRow.length).data.count '%') = sampleRow.length ∧
        boundParams sampleRow = sampleRow.map Prod.snd ∧
        (columnIdents (fun s => s) sampleRow).zip (boundParams sampleRow) =
          sampleRow.map (fun kv => ((fun s : String => s) kv.1, kv.2))) :=
  ⟨by decide, insert_builder_aligned (fun s => s) sampleRow (by decide)⟩
